import Mathlib

/-!
Verification development for the RAG core of the CodeGenerator repository
(`rag_system.py`): a shallow embedding in Lean 4 of the chunker, the vector
store and the per-project index lifecycle, together with theorems settling
the specification claims about them.

Embedding conventions:
- Python strings are Lean `String`s; the Python string primitives the source
  uses (`strip`, `split`, `join`, `startswith`, `in`, slicing, `lower`) are
  modelled by executable helpers over `List Char` below.
- Python float values (vector components and similarity scores) are
  modelled as `Int`: the embedder is an injected parameter, no claim depends
  on fractional score values, and `Int` keeps every comparison and every
  concrete evaluation kernel-computable.
- The sentence-transformer embedding model is an injected parameter
  (`Embedder`), matching the spec's treatment of the embedder as a pluggable
  capability.
- FAISS's `IndexFlatIP` is modelled as the list of stored vectors; its
  `search` is exact top-k inner-product retrieval in descending score order.
- The filesystem (the `.faiss` / `.pkl` artifact pair per store key) is an
  explicit `Disk` value; `datetime.now()` is an explicit `now` parameter;
  the md5 chunk-id digest is modelled by the hashed string itself (the
  claims never depend on the digest function, only on determinism).
-/

namespace RagSpec

/-! Python string primitives, modelled executably over `List Char`. -/

/-- Whitespace characters recognized by the models of Python `str.strip`,
`str.split` and the JSON scanner. -/
def pyIsWs (c : Char) : Bool :=
  c = ' ' || c = '\t' || c = '\n' || c = '\r' || c = '\x0b' || c = '\x0c'

/-- Model of Python `str.strip()`: drop leading and trailing whitespace. -/
def pyStrip (s : String) : String :=
  String.mk (((s.data.dropWhile pyIsWs).reverse.dropWhile pyIsWs).reverse)

/-- Prefix test on char lists (a computable mirror of list prefixing). -/
def listIsPrefixOf : List Char → List Char → Bool
  | [], _ => true
  | _ :: _, [] => false
  | a :: as, b :: bs => a == b && listIsPrefixOf as bs

/-- Model of Python `s.startswith(pre)`. -/
def pyStartsWith (s pre : String) : Bool :=
  listIsPrefixOf pre.data s.data

/-- Substring membership on char lists (worker for `pyIn`). -/
def listContainsChars (needle : List Char) : List Char → Bool
  | [] => needle.isEmpty
  | c :: cs => listIsPrefixOf needle (c :: cs) || listContainsChars needle cs

/-- Model of Python `sub in s` substring membership. -/
def pyIn (sub s : String) : Bool :=
  listContainsChars sub.data s.data

/-- Model of Python `s[:n]` for non-negative `n` (counted in code points). -/
def pyTake (s : String) (n : Nat) : String :=
  String.mk (s.data.take n)

/-- ASCII lower-casing of one character. -/
def pyCharLower (c : Char) : Char :=
  if 'A' ≤ c && c ≤ 'Z' then Char.ofNat (c.toNat + 32) else c

/-- Model of Python `str.lower()` (ASCII range; the source only lower-cases
file extensions). -/
def pyLower (s : String) : String :=
  String.mk (s.data.map pyCharLower)

/-- Splitting worker for a non-empty separator, fuelled by the input length
(the fuel is always sufficient, since every step consumes a character). -/
def pySplitCore (sep : List Char) : Nat → List Char → List Char → List (List Char)
  | 0, rest, cur => [cur.reverse ++ rest]
  | _ + 1, [], cur => [cur.reverse]
  | fuel + 1, c :: cs, cur =>
    if listIsPrefixOf sep (c :: cs) then
      cur.reverse :: pySplitCore sep fuel ((c :: cs).drop sep.length) []
    else
      pySplitCore sep fuel cs (c :: cur)

/-- Model of Python `s.split(sep)` for a non-empty separator. -/
def pySplit (s sep : String) : List String :=
  (pySplitCore sep.data (s.data.length + 1) s.data []).map String.mk

/-- Model of Python `sep.join(parts)`. -/
def pyJoin (sep : String) : List String → String
  | [] => ""
  | [x] => x
  | x :: y :: t => x ++ sep ++ pyJoin sep (y :: t)

/-! Data model (`rag_system.py` lines 19-31). -/

/-- A stored embedding vector (a Python `numpy` float array, its components
modelled over `Int`). -/
abbrev Vec := List Int

/-- The injected sentence-embedding capability: `model.encode` restricted to
one text (batch calls are its `List.map`), plus the model's fixed output
dimension (`get_sentence_embedding_dimension`). -/
structure Embedder where
  encode : String → Vec
  dim : Nat

/-- A metadata value: the source stores strings, ints and (through the
`file_types` filter) lists of strings in `Dict[str, Any]` positions. -/
inductive Val where
  | str (s : String)
  | int (n : Int)
  | listStr (l : List String)
deriving DecidableEq

/-- Rendering of a metadata value by Python `str()` inside an f-string. -/
def Val.render : Val → String
  | .str s => s
  | .int n => toString n
  | .listStr l => "[" ++ pyJoin ", " (l.map (fun s => "'" ++ s ++ "'")) ++ "]"

/-- Mirror of the `DocumentChunk` dataclass (line 19): chunk text, metadata
dictionary (an association list with unique keys), content-addressed id, and
the embedding attached by `add_chunks`. -/
structure DocumentChunk where
  content : String
  metadata : List (String × Val)
  chunk_id : String
  embedding : Option Vec := none
deriving DecidableEq

/-- Mirror of the `SearchResult` dataclass (line 27). -/
structure SearchResult where
  chunk : DocumentChunk
  similarity_score : Int
  rank : Nat
deriving DecidableEq

/-! Chunker (`ProjectFileProcessor`, lines 34-334). -/

/-- Mirror of `ProjectFileProcessor._create_chunk` (line 316).  The md5
hexdigest of the id string is modelled by the id string itself, and
`datetime.now().isoformat()` by the explicit `now` argument; the claims only
use that both are deterministic functions of the call. -/
def createChunk (content fn u p now : String) (metadata : List (String × Val)) :
    DocumentChunk :=
  { content := content
    metadata :=
      [("filename", Val.str fn), ("user_id", Val.str u), ("project_id", Val.str p),
       ("created_at", Val.str now), ("content_length", Val.int content.length)]
      ++ metadata
    chunk_id := u ++ "_" ++ p ++ "_" ++ fn ++ "_" ++ pyTake content 100 }

/-- Mirror of `self.supported_extensions` (line 38). -/
def supportedExtensions : List (String × String) :=
  [(".py", "python"), (".js", "javascript"), (".ts", "typescript"),
   (".java", "java"), (".cpp", "cpp"), (".c", "c"), (".rb", "ruby"),
   (".go", "go"), (".rs", "rust"), (".php", "php"), (".md", "markdown"),
   (".txt", "text"), (".json", "json"), (".yaml", "yaml"), (".yml", "yaml"),
   (".xml", "xml"), (".html", "html"), (".css", "css"), (".sql", "sql"),
   (".sh", "shell"), (".dockerfile", "docker"), (".gitignore", "config"),
   (".env", "config")]

/-- Extension finder on the dot-stripped basename: the segment from the last
dot, or `[]` when there is none. -/
def extChars : List Char → List Char
  | [] => []
  | '.' :: cs => let e := extChars cs; if e.isEmpty then '.' :: cs else e
  | _ :: cs => extChars cs

/-- Model of `os.path.splitext(filename)[1].lower()` (line 79): the lowercased
extension of the basename, where a leading run of dots does not start an
extension. -/
def extOf (filename : String) : String :=
  let base := ((pySplit filename "/").getLastD "").data
  pyLower (String.mk (extChars (base.dropWhile (fun c => c = '.'))))

/-- The three line classifiers a structural-code chunker branches on; the
Python and JavaScript chunkers (lines 102 and 176) share their loop shape and
differ only in these predicates, applied to the stripped line. -/
structure LineRules where
  isImport : String → Bool
  isClass : String → Bool
  isFun : String → Bool

/-- Line classifiers of `_chunk_python_file` (lines 114, 127, 140). -/
def pythonRules : LineRules where
  isImport s := pyStartsWith s "import " || pyStartsWith s "from "
  isClass s := pyStartsWith s "class "
  isFun s := pyStartsWith s "def "

/-- Line classifiers of `_chunk_js_file` (lines 188, 203, 216). -/
def jsRules : LineRules where
  isImport s :=
    (pyStartsWith s "import " || pyStartsWith s "require(" || pyStartsWith s "const "
      || pyStartsWith s "let " || pyStartsWith s "var ")
    && (pyIn "require(" s || pyIn "import" s)
  isClass s := pyStartsWith s "class " || pyIn "class " s
  isFun s :=
    (pyStartsWith s "function " || pyStartsWith s "const ")
    && ((pyIn "=" s && pyIn "=>" s) || pyIn "function" s)

/-- The structural-code chunking loop shared by `_chunk_python_file` and
`_chunk_js_file` (lines 110-174 and 184-252): walks the lines with the
running buffer `cur` and current chunk type `ctype`, flushing on structural
boundaries and on the `len(current_chunk) > 50` size check, and flushing any
trailing buffer at end of input.  `i` is the 0-based index of the next line
and `total` the total number of lines (used for the final `start_line`). -/
def chunkCodeLines (R : LineRules) (fn u p now : String) (total : Nat) :
    List String → Nat → List String → String → List DocumentChunk
  | [], _, cur, ctype =>
    if cur.isEmpty then []
    else
      [createChunk (pyJoin "\n" cur) fn u p now
        [("type", Val.str ctype), ("start_line", Val.int ((total : Int) - cur.length + 1))]]
  | line :: rest, i, cur, ctype =>
    let stripped := pyStrip line
    if R.isImport stripped then
      if !cur.isEmpty && ctype != "imports" then
        createChunk (pyJoin "\n" cur) fn u p now
            [("type", Val.str ctype), ("start_line", Val.int ((i : Int) - cur.length + 1))]
          :: chunkCodeLines R fn u p now total rest (i + 1) [line] "imports"
      else
        chunkCodeLines R fn u p now total rest (i + 1) (cur ++ [line]) "imports"
    else if R.isClass stripped then
      if !cur.isEmpty then
        createChunk (pyJoin "\n" cur) fn u p now
            [("type", Val.str ctype), ("start_line", Val.int ((i : Int) - cur.length + 1))]
          :: chunkCodeLines R fn u p now total rest (i + 1) [line] "class"
      else
        chunkCodeLines R fn u p now total rest (i + 1) (cur ++ [line]) "class"
    else if R.isFun stripped then
      if !cur.isEmpty && ctype != "class" then
        createChunk (pyJoin "\n" cur) fn u p now
            [("type", Val.str ctype), ("start_line", Val.int ((i : Int) - cur.length + 1))]
          :: chunkCodeLines R fn u p now total rest (i + 1) [line] "function"
      else
        chunkCodeLines R fn u p now total rest (i + 1) (cur ++ [line]) "function"
    else
      let cur2 := cur ++ [line]
      if 50 < cur2.length then
        createChunk (pyJoin "\n" cur2) fn u p now
            [("type", Val.str ctype), ("start_line", Val.int ((i : Int) - cur2.length + 1))]
          :: chunkCodeLines R fn u p now total rest (i + 1) [] "general"
      else
        chunkCodeLines R fn u p now total rest (i + 1) cur2 ctype

/-- Mirror of `_chunk_python_file` (line 102). -/
def chunkPythonFile (fn content u p now : String) : List DocumentChunk :=
  let lines := pySplit content "\n"
  chunkCodeLines pythonRules fn u p now lines.length lines 0 [] "general"

/-- Mirror of `_chunk_js_file` (line 176). -/
def chunkJsFile (fn content u p now : String) : List DocumentChunk :=
  let lines := pySplit content "\n"
  chunkCodeLines jsRules fn u p now lines.length lines 0 [] "general"

/-- Mirror of `_chunk_markdown_file` (line 254): split on interior heading
boundaries, re-attach the stripped `#`, drop whitespace-only sections. -/
def chunkMarkdownFile (fn content u p now : String) : List DocumentChunk :=
  ((pySplit content "\n#").enum).filterMap fun pr =>
    let sec := if 0 < pr.1 then "#" ++ pr.2 else pr.2
    if pyStrip sec ≠ "" then
      some (createChunk (pyStrip sec) fn u p now
        [("type", Val.str "markdown_section"), ("section_index", Val.int pr.1)])
    else none

/-- Mirror of `_chunk_generic_file`'s window loop (line 305): 100-line
non-overlapping windows; `i` is the 0-based index of the window's first
line.  The first argument is structural fuel so that the definition reduces
by kernel computation; every step consumes at least one line, so the initial
fuel `lines.length` is never exhausted. -/
def chunkGenericLoop (fn u p now ftype : String) :
    Nat → List String → Nat → List DocumentChunk
  | _, [], _ => []
  | 0, _ :: _, _ => []
  | fuel + 1, l :: ls, i =>
    let window := (l :: ls).take 100
    createChunk (pyJoin "\n" window) fn u p now
        [("type", Val.str ftype), ("start_line", Val.int (i + 1)),
         ("end_line", Val.int (i + window.length))]
      :: chunkGenericLoop fn u p now ftype fuel ((l :: ls).drop 100) (i + 100)

/-- Mirror of `_chunk_generic_file` (line 298). -/
def chunkGenericFile (fn content u p now ftype : String) : List DocumentChunk :=
  chunkGenericLoop fn u p now ftype (pySplit content "\n").length (pySplit content "\n") 0

/-! JSON model: the fragment of Python `json.loads` / `json.dumps` the JSON
chunker depends on. -/

/-- JSON values as produced by `json.loads`. -/
inductive Json where
  | null
  | bool (b : Bool)
  | num (n : Int)
  | str (s : String)
  | arr (elems : List Json)
  | obj (members : List (String × Json))

/-- Scan a JSON string body up to the closing quote (escapes not modelled;
no claim exercises them). -/
def takeJString : List Char → Option (List Char × List Char)
  | [] => none
  | c :: cs =>
    if c = '"' then some ([], cs)
    else (takeJString cs).map (fun pr => (c :: pr.1, pr.2))

/-- Parse an integer literal (sign and digits; fractions and exponents not
modelled; no claim exercises them). -/
def parseIntTok (s : List Char) : Option (Json × List Char) :=
  let pr : Bool × List Char := match s with
    | '-' :: t => (true, t)
    | _ => (false, s)
  let digits := pr.2.takeWhile (fun c => c.isDigit)
  if digits.isEmpty then none
  else
    let n : Nat := digits.foldl (fun a c => a * 10 + (c.toNat - 48)) 0
    some (Json.num (if pr.1 then -(n : Int) else (n : Int)), pr.2.drop digits.length)

mutual

/-- Modelled from the spec: recursive-descent core of Python `json.loads`
(the source calls the standard library here), fuelled by the input length. -/
def parseVal : Nat → List Char → Option (Json × List Char)
  | 0, _ => none
  | fuel + 1, s =>
    match s.dropWhile pyIsWs with
    | [] => none
    | '"' :: cs => (takeJString cs).map (fun pr => (Json.str (String.mk pr.1), pr.2))
    | '\x7b' :: cs =>
      (match cs.dropWhile pyIsWs with
       | '\x7d' :: rest => some (Json.obj [], rest)
       | _ => (parseMembers fuel cs).map (fun pr => (Json.obj pr.1, pr.2)))
    | '[' :: cs =>
      (match cs.dropWhile pyIsWs with
       | ']' :: rest => some (Json.arr [], rest)
       | _ => (parseItems fuel cs).map (fun pr => (Json.arr pr.1, pr.2)))
    | c :: cs =>
      if listIsPrefixOf ['t', 'r', 'u', 'e'] (c :: cs) then
        some (Json.bool true, (c :: cs).drop 4)
      else if listIsPrefixOf ['f', 'a', 'l', 's', 'e'] (c :: cs) then
        some (Json.bool false, (c :: cs).drop 5)
      else if listIsPrefixOf ['n', 'u', 'l', 'l'] (c :: cs) then
        some (Json.null, (c :: cs).drop 4)
      else parseIntTok (c :: cs)

/-- Members of a non-empty JSON object, after the opening brace. -/
def parseMembers : Nat → List Char → Option (List (String × Json) × List Char)
  | 0, _ => none
  | fuel + 1, s =>
    match s.dropWhile pyIsWs with
    | '"' :: cs =>
      (match takeJString cs with
       | none => none
       | some (key, rest1) =>
         match rest1.dropWhile pyIsWs with
         | ':' :: rest2 =>
           (match parseVal fuel rest2 with
            | none => none
            | some (v, rest3) =>
              match rest3.dropWhile pyIsWs with
              | ',' :: rest4 =>
                (parseMembers fuel rest4).map
                  (fun pr => ((String.mk key, v) :: pr.1, pr.2))
              | '\x7d' :: rest4 => some ([(String.mk key, v)], rest4)
              | _ => none)
         | _ => none)
    | _ => none

/-- Items of a non-empty JSON array, after the opening bracket. -/
def parseItems : Nat → List Char → Option (List Json × List Char)
  | 0, _ => none
  | fuel + 1, s =>
    match parseVal fuel s with
    | none => none
    | some (v, rest) =>
      match rest.dropWhile pyIsWs with
      | ',' :: rest2 => (parseItems fuel rest2).map (fun pr => (v :: pr.1, pr.2))
      | ']' :: rest2 => some ([v], rest2)
      | _ => none

end

/-- Modelled from the spec: Python `json.loads(content)`, returning `none`
where the library raises `json.JSONDecodeError` (trailing garbage included). -/
def jsonParse (content : String) : Option Json :=
  match parseVal (content.data.length + 1) content.data with
  | some (v, rest) => if (rest.dropWhile pyIsWs).isEmpty then some v else none
  | none => none

mutual

/-- Modelled from the spec: deterministic rendering standing in for
`json.dumps(value, indent=2)` (the source calls the standard library here;
no claim depends on the exact layout, only on the rendered text being a
deterministic function of the value). -/
def dumps : Json → String
  | .null => "null"
  | .bool true => "true"
  | .bool false => "false"
  | .num n => toString n
  | .str s => "\"" ++ s ++ "\""
  | .arr l => "[" ++ dumpsItems l ++ "]"
  | .obj l => "\x7b" ++ dumpsMembers l ++ "\x7d"

/-- Comma-separated rendering of array items. -/
def dumpsItems : List Json → String
  | [] => ""
  | [x] => dumps x
  | x :: y :: t => dumps x ++ ", " ++ dumpsItems (y :: t)

/-- Comma-separated rendering of object members. -/
def dumpsMembers : List (String × Json) → String
  | [] => ""
  | [kv] => "\"" ++ kv.1 ++ "\": " ++ dumps kv.2
  | kv :: m :: t => "\"" ++ kv.1 ++ "\": " ++ dumps kv.2 ++ ", " ++ dumpsMembers (m :: t)

end

/-- Mirror of `_chunk_json_file` (line 272): one chunk per top-level key of a
mapping, a `json_content` fallback for a non-mapping root, an `invalid_json`
fallback when parsing fails. -/
def chunkJsonFile (fn content u p now : String) : List DocumentChunk :=
  match jsonParse content with
  | none => [createChunk content fn u p now [("type", Val.str "invalid_json")]]
  | some (Json.obj members) =>
    members.map fun kv =>
      createChunk ("Key: " ++ kv.1 ++ "\nValue: " ++ dumps kv.2) fn u p now
        [("type", Val.str "json_key"), ("key", Val.str kv.1)]
  | some _ => [createChunk content fn u p now [("type", Val.str "json_content")]]

/-- Mirror of `_chunk_file` (line 76): strategy dispatch on the extension's
file type. -/
def chunkFile (fn content u p now : String) : List DocumentChunk :=
  let ftype := (supportedExtensions.lookup (extOf fn)).getD "unknown"
  if ftype = "python" then chunkPythonFile fn content u p now
  else if ftype = "javascript" || ftype = "typescript" then chunkJsFile fn content u p now
  else if ftype = "markdown" then chunkMarkdownFile fn content u p now
  else if ftype = "json" then chunkJsonFile fn content u p now
  else chunkGenericFile fn content u p now ftype

/-- Mirror of `ProjectFileProcessor.process_files` (line 64). -/
def processFiles (files : List (String × String)) (u p now : String) :
    List DocumentChunk :=
  (files.map (fun f => chunkFile f.1 f.2 u p now)).flatten

/-! Vector store (`VectorStore`, lines 336-427). -/

/-- Inner product of two vectors (`faiss.IndexFlatIP`'s similarity). -/
def dot (a b : Vec) : Int :=
  (List.zipWith (fun x y => x * y) a b).sum

/-- Stable descending insertion of a scored candidate: kept after every
earlier candidate whose score is at least as large. -/
def insertDesc (x : Int × Nat) : List (Int × Nat) → List (Int × Nat)
  | [] => [x]
  | y :: ys => if x.1 ≤ y.1 then y :: insertDesc x ys else x :: y :: ys

/-- Stable sort of scored candidates by descending score. -/
def sortDesc : List (Int × Nat) → List (Int × Nat)
  | [] => []
  | x :: xs => insertDesc x (sortDesc xs)

/-- Model of `self.index.search(query_embedding, k_search)` on a flat
inner-product index: every stored vector is scored against the query and the
`ksearch` best `(score, position)` pairs are returned in descending score
order. -/
def faissSearch (index : List Vec) (q : Vec) (ksearch : Nat) : List (Int × Nat) :=
  (sortDesc ((index.enum).map (fun pr => (dot q pr.2, pr.1)))).take ksearch

/-- Mirror of `VectorStore._matches_filters` (line 392): every filter key must
be present in the chunk's metadata with a value equal to the filter's value. -/
def matchesFilters (c : DocumentChunk) (filters : List (String × Val)) : Bool :=
  filters.all (fun kv => decide (c.metadata.lookup kv.1 = some kv.2))

/-- Mirror of the result-collection loop of `VectorStore.search` (lines
377-389): walk the candidates, skip positions outside the chunk list, skip
filtered-out chunks when a non-empty filter dictionary was given, assign
1-based ranks in collection order, and stop once `k` results are collected.
`collected` is `len(results)` so far. -/
def searchLoop (chunks : List DocumentChunk) (filters : List (String × Val)) (k : Nat) :
    List (Int × Nat) → Nat → List SearchResult
  | [], _ => []
  | (score, idx) :: rest, collected =>
    if h : idx < chunks.length then
      let chunk := chunks.get ⟨idx, h⟩
      if !filters.isEmpty && !matchesFilters chunk filters then
        searchLoop chunks filters k rest collected
      else if k ≤ collected + 1 then
        [⟨chunk, score, collected + 1⟩]
      else
        ⟨chunk, score, collected + 1⟩ :: searchLoop chunks filters k rest (collected + 1)
    else searchLoop chunks filters k rest collected

/-- The in-memory vector store (lines 339-344): the FAISS index's stored
vectors, the parallel chunk list, the by-id chunk dictionary, and the model
dimension. -/
structure VectorStore where
  index : List Vec
  chunks : List DocumentChunk
  metadata_store : List (String × DocumentChunk)
  dimension : Nat
deriving DecidableEq

/-- A freshly constructed `VectorStore()` (line 339). -/
def VectorStore.init (E : Embedder) : VectorStore :=
  { index := [], chunks := [], metadata_store := [], dimension := E.dim }

/-- Dictionary update on an association list: the new binding shadows and
removes any previous binding of the key. -/
def setA {α : Type} (l : List (String × α)) (k : String) (v : α) : List (String × α) :=
  (k, v) :: l.filter (fun pr => pr.1 != k)

/-- The batch of chunks with their embeddings attached, as `add_chunks`'s
`zip` loop produces it (lines 359-360). -/
def embedWith (E : Embedder) (chunks : List DocumentChunk) : List DocumentChunk :=
  (chunks.zip (chunks.map (fun c => E.encode c.content))).map
    (fun pr => { pr.1 with embedding := some pr.2 })

/-- Mirror of `VectorStore.add_chunks` (line 346): no-op on the empty batch;
otherwise embed the batch, append the embeddings to the index, attach each
embedding to its chunk, and append the chunks to the list and the by-id
dictionary. -/
def VectorStore.add_chunks (E : Embedder) (vs : VectorStore)
    (chunks : List DocumentChunk) : VectorStore :=
  if chunks.isEmpty then vs
  else
    { index := vs.index ++ chunks.map (fun c => E.encode c.content)
      chunks := vs.chunks ++ embedWith E chunks
      metadata_store := (embedWith E chunks).foldl
        (fun m c => setA m c.chunk_id c) vs.metadata_store
      dimension := vs.dimension }

/-- Mirror of `VectorStore.search` (line 364): empty index short-circuits to
the empty result, `k` is clamped to the number of stored vectors for the
FAISS call, and the candidates feed the collection loop. -/
def VectorStore.search (E : Embedder) (vs : VectorStore) (query : String) (k : Nat)
    (filters : List (String × Val)) : List SearchResult :=
  if vs.index.length = 0 then []
  else
    searchLoop vs.chunks filters k
      (faissSearch vs.index (E.encode query) (min k vs.index.length)) 0

/-- Contents of the pickled companion file written by `VectorStore.save`
(lines 409-414). -/
structure PklData where
  chunks : List DocumentChunk
  metadata_store : List (String × DocumentChunk)
  dimension : Nat
deriving DecidableEq

/-- The durable storage: for each store path, the optional `.faiss` artifact
(the serialized index) and the optional `.pkl` artifact. -/
structure Disk where
  faissFiles : List (String × List Vec)
  pklFiles : List (String × PklData)
deriving DecidableEq

/-- Mirror of `VectorStore.save` (line 401): write both companion artifacts
for the path. -/
def VectorStore.save (vs : VectorStore) (disk : Disk) (path : String) : Disk :=
  { faissFiles := setA disk.faissFiles path vs.index
    pklFiles := setA disk.pklFiles path
      { chunks := vs.chunks, metadata_store := vs.metadata_store,
        dimension := vs.dimension } }

/-- Mirror of `VectorStore.load` (line 416): only when both companion files
exist are the index, chunk list, dictionary and dimension replaced by the
persisted data; otherwise the store is returned unchanged.  No validation of
the loaded data (in particular of its dimension) is performed, and no error
is ever signalled. -/
def VectorStore.load (disk : Disk) (path : String) (vs : VectorStore) : VectorStore :=
  match disk.faissFiles.lookup path, disk.pklFiles.lookup path with
  | some fa, some pk =>
    { index := fa, chunks := pk.chunks, metadata_store := pk.metadata_store,
      dimension := pk.dimension }
  | _, _ => vs

/-! Project store and façade (`ProjectRAG`, lines 429-577). -/

/-- The mutable state of a `ProjectRAG` instance: its in-memory
`vector_stores` cache (line 435).  The storage directory prefix is dropped
from paths: a store's path on `Disk` is its `store_key`. -/
structure ProjectRAG where
  vector_stores : List (String × VectorStore)
deriving DecidableEq

/-- The store key `f"{user_id}_{project_id}"` (line 444). -/
def storeKey (u p : String) : String := u ++ "_" ++ p

/-- Mirror of `ProjectRAG.index_project` (line 438): chunk the files, load
the persisted store for the key when its `.faiss` artifact exists, append the
new chunks, persist, cache, and return the number of chunks produced by this
call. -/
def ProjectRAG.index_project (E : Embedder) (st : ProjectRAG) (disk : Disk)
    (u p now : String) (files : List (String × String)) :
    Nat × ProjectRAG × Disk :=
  let chunks := processFiles files u p now
  let key := storeKey u p
  let vs0 := VectorStore.init E
  let vs1 := if (disk.faissFiles.lookup key).isSome then VectorStore.load disk key vs0 else vs0
  let vs2 := VectorStore.add_chunks E vs1 chunks
  (chunks.length, ⟨setA st.vector_stores key vs2⟩, vs2.save disk key)

/-- The filter dictionary built by `ProjectRAG.search_project` (lines
481-483): the whole `file_types` list, when given, becomes the required value
of the `type` key. -/
def mkFilters : Option (List String) → List (String × Val)
  | some ts => [("type", Val.listStr ts)]
  | none => []

/-- Mirror of `ProjectRAG.search_project` (line 463): serve from the cache
when present; otherwise load from disk when the key's `.faiss` artifact
exists (caching the loaded store); otherwise return the empty list. -/
def ProjectRAG.search_project (E : Embedder) (st : ProjectRAG) (disk : Disk)
    (u p query : String) (k : Nat) (file_types : Option (List String)) :
    List SearchResult × ProjectRAG :=
  let key := storeKey u p
  match st.vector_stores.lookup key with
  | some vs => (vs.search E query k (mkFilters file_types), st)
  | none =>
    match disk.faissFiles.lookup key with
    | some _ =>
      let vs := VectorStore.load disk key (VectorStore.init E)
      (vs.search E query k (mkFilters file_types), ⟨setA st.vector_stores key vs⟩)
    | none => ([], st)

/-- Model of the Python float formatting `f"{x:.3f}"` (line 501): the value
rendered with exactly three fractional digits.  The model's float values are
integers (see the header), so the fractional digits are always `000`,
exactly as Python renders an integer-valued float with `.3f`. -/
def fmt3 (x : Int) : String :=
  (if x < 0 then "-" else "") ++ toString x.natAbs ++ ".000"

/-- Mirror of the per-hit f-string block of `get_relevant_context` (lines
498-506): filename, chunk type, score to three decimals, the first 1000
characters of the content, and the `"..."` marker — which the source appends
unconditionally.  The chunks the processor builds always carry the
`filename` key, so the lookup default is never observable through the
façade. -/
def contextBlock (r : SearchResult) : String :=
  "\nFile: " ++ ((r.chunk.metadata.lookup "filename").getD (Val.str "")).render
    ++ "\nType: " ++ ((r.chunk.metadata.lookup "type").getD (Val.str "unknown")).render
    ++ "\nRelevance Score: " ++ fmt3 r.similarity_score
    ++ "\n\nContent:\n" ++ pyTake r.chunk.content 1000 ++ "...\n---\n"

/-- Mirror of `ProjectRAG.get_relevant_context` (line 487): search with
`k = max_chunks`, return the empty string on no results, else the per-hit
blocks joined with a newline. -/
def ProjectRAG.get_relevant_context (E : Embedder) (st : ProjectRAG) (disk : Disk)
    (u p query : String) (max_chunks : Nat) : String × ProjectRAG :=
  let pr := ProjectRAG.search_project E st disk u p query max_chunks none
  if pr.1.isEmpty then ("", pr.2)
  else (pyJoin "\n" (pr.1.map contextBlock), pr.2)

/-- The flattened record `search_similar_code` re-shapes each hit into
(lines 570-575). -/
structure CodeHit where
  file : Val
  content : String
  score : Int
  type : Val
deriving DecidableEq

/-- Mirror of `ProjectRAG.search_similar_code` (line 563): delegate to
`search_project` with no file-type filter and flatten each result.  As in
`contextBlock`, the `filename` lookup default is never observable, since
every chunk the processor builds carries the key. -/
def ProjectRAG.search_similar_code (E : Embedder) (st : ProjectRAG) (disk : Disk)
    (query : String) (top_k : Nat) (u p : String) : List CodeHit × ProjectRAG :=
  let pr := ProjectRAG.search_project E st disk u p query top_k none
  (pr.1.map (fun r =>
    { file := (r.chunk.metadata.lookup "filename").getD (Val.str "")
      content := r.chunk.content
      score := r.similarity_score
      type := (r.chunk.metadata.lookup "type").getD (Val.str "unknown") }), pr.2)

/-! Supporting lemmas about the candidate sort and the collection loop. -/

lemma mem_insertDesc {x y : Int × Nat} {l : List (Int × Nat)} :
    y ∈ insertDesc x l ↔ y = x ∨ y ∈ l := by
  induction l with
  | nil => simp [insertDesc]
  | cons a t ih =>
    by_cases h : x.1 ≤ a.1
    · simp only [insertDesc, if_pos h, List.mem_cons, ih]
      tauto
    · simp only [insertDesc, if_neg h, List.mem_cons]

lemma pairwise_insertDesc (x : Int × Nat) (l : List (Int × Nat))
    (hl : l.Pairwise (fun a b => b.1 ≤ a.1)) :
    (insertDesc x l).Pairwise (fun a b => b.1 ≤ a.1) := by
  induction l with
  | nil => simp [insertDesc]
  | cons a t ih =>
    rcases List.pairwise_cons.mp hl with ⟨ha, ht⟩
    by_cases h : x.1 ≤ a.1
    · simp only [insertDesc, if_pos h]
      refine List.pairwise_cons.mpr ⟨?_, ih ht⟩
      intro y hy
      rcases mem_insertDesc.mp hy with rfl | hy
      · exact h
      · exact ha y hy
    · simp only [insertDesc, if_neg h]
      refine List.pairwise_cons.mpr ⟨?_, hl⟩
      intro y hy
      rcases List.mem_cons.mp hy with rfl | hy
      · exact le_of_lt (lt_of_not_le h)
      · exact le_trans (ha y hy) (le_of_lt (lt_of_not_le h))

lemma pairwise_sortDesc (l : List (Int × Nat)) :
    (sortDesc l).Pairwise (fun a b => b.1 ≤ a.1) := by
  induction l with
  | nil => simp [sortDesc]
  | cons a t ih => exact pairwise_insertDesc a (sortDesc t) ih

lemma length_insertDesc (x : Int × Nat) (l : List (Int × Nat)) :
    (insertDesc x l).length = l.length + 1 := by
  induction l with
  | nil => rfl
  | cons a t ih =>
    by_cases h : x.1 ≤ a.1 <;> simp [insertDesc, h, ih]

lemma length_sortDesc (l : List (Int × Nat)) : (sortDesc l).length = l.length := by
  induction l with
  | nil => rfl
  | cons a t ih => simp [sortDesc, length_insertDesc, ih]

/-- The FAISS retrieval model returns exactly `min ksearch ntotal` candidates. -/
lemma length_faissSearch (index : List Vec) (q : Vec) (ksearch : Nat) :
    (faissSearch index q ksearch).length = min ksearch index.length := by
  simp [faissSearch, length_sortDesc]

/-- The FAISS retrieval model returns candidates in descending score order. -/
lemma pairwise_faissSearch (index : List Vec) (q : Vec) (ksearch : Nat) :
    (faissSearch index q ksearch).Pairwise (fun a b => b.1 ≤ a.1) :=
  (pairwise_sortDesc _).sublist (List.take_sublist _ _)

/-- Every result the collection loop returns holds a chunk of the store's
chunk list (candidate positions beyond the list are skipped). -/
lemma searchLoop_chunk_mem (chunks : List DocumentChunk) (filters : List (String × Val))
    (k : Nat) : ∀ (cands : List (Int × Nat)) (collected : Nat),
    ∀ r ∈ searchLoop chunks filters k cands collected, r.chunk ∈ chunks := by
  intro cands
  induction cands with
  | nil => intro collected r hr; simp [searchLoop] at hr
  | cons c rest ih =>
    intro collected r hr
    obtain ⟨score, idx⟩ := c
    simp only [searchLoop] at hr
    split at hr
    · split at hr
      · exact ih collected r hr
      · split at hr
        · simp at hr
          subst hr
          exact List.get_mem chunks idx _
        · rcases List.mem_cons.mp hr with rfl | hr
          · exact List.get_mem chunks idx _
          · exact ih (collected + 1) r hr
    · exact ih collected r hr

/-- The scores of the collected results are a sublist of the candidate
scores, in order. -/
lemma searchLoop_scores_sublist (chunks : List DocumentChunk)
    (filters : List (String × Val)) (k : Nat) :
    ∀ (cands : List (Int × Nat)) (collected : Nat),
    List.Sublist ((searchLoop chunks filters k cands collected).map
        SearchResult.similarity_score)
      (cands.map (fun c => c.1)) := by
  intro cands
  induction cands with
  | nil => intro collected; simp [searchLoop]
  | cons c rest ih =>
    intro collected
    obtain ⟨score, idx⟩ := c
    simp only [searchLoop]
    split
    · split
      · exact (ih collected).cons score
      · split
        · simp only [List.map_cons, List.map_nil]
          exact (List.nil_sublist _).cons₂ score
        · simp only [List.map_cons]
          exact (ih (collected + 1)).cons₂ score
    · exact (ih collected).cons score

/-- The ranks of the collected results are consecutive, starting one past the
count already collected. -/
lemma searchLoop_ranks (chunks : List DocumentChunk) (filters : List (String × Val))
    (k : Nat) : ∀ (cands : List (Int × Nat)) (collected : Nat),
    (searchLoop chunks filters k cands collected).map SearchResult.rank
      = List.range' (collected + 1)
          (searchLoop chunks filters k cands collected).length := by
  intro cands
  induction cands with
  | nil => intro collected; simp [searchLoop]
  | cons c rest ih =>
    intro collected
    obtain ⟨score, idx⟩ := c
    simp only [searchLoop]
    split
    · split
      · exact ih collected
      · split
        · simp
        · simp only [List.map_cons, List.length_cons, ih (collected + 1)]
          rfl
    · exact ih collected

/-- At most `k - collected` further results are collected once `collected`
of `k` are in hand. -/
lemma searchLoop_length_le (chunks : List DocumentChunk) (filters : List (String × Val))
    (k : Nat) : ∀ (cands : List (Int × Nat)) (collected : Nat), collected < k →
    (searchLoop chunks filters k cands collected).length ≤ k - collected := by
  intro cands
  induction cands with
  | nil => intro collected _; simp [searchLoop]
  | cons c rest ih =>
    intro collected hc
    obtain ⟨score, idx⟩ := c
    simp only [searchLoop]
    split
    · split
      · exact ih collected hc
      · split
        · simp only [List.length_cons, List.length_nil]
          omega
        · rename_i hstop
          have hlt : collected + 1 < k := lt_of_not_le hstop
          have := ih (collected + 1) hlt
          simp only [List.length_cons]
          omega
    · exact ih collected hc

/-! Concrete fixtures used by witnesses and counterexamples. -/

/-- A concrete embedder: the text's length plus one, as a 1-dimensional
vector. -/
def E0 : Embedder := { encode := fun s => [(s.length : Int) + 1], dim := 1 }

/-- A chunk of type `function`, as the processor would tag a Python
function chunk. -/
def chunkF : DocumentChunk := createChunk "hello" "a.py" "u" "p" "t" [("type", Val.str "function")]

/-- A consistent one-chunk store holding `chunkF`. -/
def storeF : VectorStore :=
  { index := [[1]], chunks := [chunkF],
    metadata_store := [(chunkF.chunk_id, chunkF)], dimension := 1 }

/-- A cache state holding `storeF` under key `u_p`. -/
def rag1 : ProjectRAG := { vector_stores := [("u_p", storeF)] }

/-- An empty durable store. -/
def disk1 : Disk := { faissFiles := [], pklFiles := [] }

/-- The hit `storeF` produces for the query `"q"` under `E0`. -/
def r1 : SearchResult := { chunk := chunkF, similarity_score := 2, rank := 1 }

/-- A store whose FAISS index holds more vectors (two) than its chunk list
has entries (one), as mismatched persisted artifacts can produce. -/
def oddStore : VectorStore :=
  { index := [[1], [2]], chunks := [chunkF],
    metadata_store := [(chunkF.chunk_id, chunkF)], dimension := 1 }

/-- The single well-formed hit searching `oddStore` for `"q"` yields. -/
def oddR : SearchResult := { chunk := chunkF, similarity_score := 2, rank := 1 }

/-! Claim C2. -/

/-- C2: for every store state, query, `k` and filter dictionary, `search`
returns at most `k` results; the ranks of the returned results are exactly
`1, 2, ...` in order; the returned scores are in descending order; the
number of candidates retrieved from the index is clamped to the number of
stored vectors; and a store with zero stored vectors yields the empty result
list rather than an error. -/
theorem C2_search_shape (E : Embedder) (vs : VectorStore) (query : String) (k : Nat)
    (filters : List (String × Val)) :
    (vs.search E query k filters).length ≤ k
    ∧ (vs.search E query k filters).map SearchResult.rank
        = List.range' 1 (vs.search E query k filters).length
    ∧ ((vs.search E query k filters).map SearchResult.similarity_score).Pairwise
        (fun a b => b ≤ a)
    ∧ (faissSearch vs.index (E.encode query) (min k vs.index.length)).length
        = min k vs.index.length
    ∧ (∀ chunks ms d, VectorStore.search E ⟨[], chunks, ms, d⟩ query k filters = []) := by
  refine ⟨?_, ?_, ?_, ?_, ?_⟩
  · by_cases h : vs.index.length = 0
    · simp [VectorStore.search, h]
    · rw [VectorStore.search, if_neg h]
      by_cases hk : k = 0
      · subst hk
        have hnil : faissSearch vs.index (E.encode query) (min 0 vs.index.length) = [] := by
          apply List.eq_nil_of_length_eq_zero
          rw [length_faissSearch]
          omega
        rw [hnil]
        simp [searchLoop]
      · have h0 : 0 < k := Nat.pos_of_ne_zero hk
        have hle := searchLoop_length_le vs.chunks filters k
          (faissSearch vs.index (E.encode query) (min k vs.index.length)) 0 h0
        omega
  · by_cases h : vs.index.length = 0
    · simp [VectorStore.search, h]
    · rw [VectorStore.search, if_neg h]
      exact searchLoop_ranks vs.chunks filters k _ 0
  · by_cases h : vs.index.length = 0
    · simp [VectorStore.search, h]
    · rw [VectorStore.search, if_neg h]
      refine List.Pairwise.sublist (searchLoop_scores_sublist vs.chunks filters k _ 0) ?_
      exact (List.pairwise_map).mpr (pairwise_faissSearch vs.index (E.encode query) _)
  · rw [length_faissSearch]
    omega
  · intro chunks ms d
    simp [VectorStore.search]

/-! Claim C10. -/

/-- C10: search never reaches outside the chunk list: every returned result
holds a chunk that is an entry of the store's chunk list, even when the
index holds more vectors than the chunk list has entries (such candidate
positions are skipped), and the result list as a whole stays well-formed. -/
theorem C10_no_out_of_range (E : Embedder) (vs : VectorStore) (query : String) (k : Nat)
    (filters : List (String × Val)) :
    ∀ r ∈ vs.search E query k filters, r.chunk ∈ vs.chunks := by
  intro r hr
  by_cases h : vs.index.length = 0
  · simp [VectorStore.search, h] at hr
  · rw [VectorStore.search, if_neg h] at hr
    exact searchLoop_chunk_mem vs.chunks filters k _ 0 r hr


/-- Witness for C10, on a store whose index holds two vectors but whose
chunk list has a single entry: the search still returns a well-formed
result whose chunk is the stored one. -/
theorem C10_witness :
    oddR ∈ VectorStore.search E0 oddStore "q" 5 [] ∧ oddR.chunk ∈ oddStore.chunks :=
  ⟨by decide, C10_no_out_of_range E0 oddStore "q" 5 [] oddR (by decide)⟩

/-! Supporting lemmas for the index lifecycle. -/

lemma lookup_setA_self {α : Type} (l : List (String × α)) (k : String) (v : α) :
    (setA l k v).lookup k = some v := by
  simp [setA, List.lookup]

lemma add_chunks_chunks (E : Embedder) (vs : VectorStore) (cs : List DocumentChunk) :
    (VectorStore.add_chunks E vs cs).chunks = vs.chunks ++ embedWith E cs := by
  cases cs with
  | nil => simp [VectorStore.add_chunks, embedWith]
  | cons c t => rfl

lemma add_chunks_index (E : Embedder) (vs : VectorStore) (cs : List DocumentChunk) :
    (VectorStore.add_chunks E vs cs).index
      = vs.index ++ cs.map (fun c => E.encode c.content) := by
  cases cs with
  | nil => simp [VectorStore.add_chunks]
  | cons c t => rfl

/-! Claim C1. -/

/-- C1: when a persisted index exists for the key, index_project loads it,
appends the chunks produced from this call's files to it — cumulatively,
without deduplicating or removing chunks of previously indexed files —
persists the grown index, caches it in memory, and returns the number of
chunks produced from this call's files alone, not the cumulative total. -/
theorem C1_index_project_cumulative (E : Embedder) (st : ProjectRAG) (disk : Disk)
    (u p now : String) (files : List (String × String)) (fa : List Vec) (pk : PklData)
    (hfa : disk.faissFiles.lookup (storeKey u p) = some fa)
    (hpk : disk.pklFiles.lookup (storeKey u p) = some pk) :
    (ProjectRAG.index_project E st disk u p now files).1
        = (processFiles files u p now).length
    ∧ ((ProjectRAG.index_project E st disk u p now files).2.2.pklFiles.lookup
          (storeKey u p)).map PklData.chunks
        = some (pk.chunks ++ embedWith E (processFiles files u p now))
    ∧ (ProjectRAG.index_project E st disk u p now files).2.2.faissFiles.lookup
          (storeKey u p)
        = some (fa ++ (processFiles files u p now).map (fun c => E.encode c.content))
    ∧ ((ProjectRAG.index_project E st disk u p now files).2.1.vector_stores.lookup
          (storeKey u p)).map VectorStore.chunks
        = some (pk.chunks ++ embedWith E (processFiles files u p now)) := by
  have hload : VectorStore.load disk (storeKey u p) (VectorStore.init E)
      = { index := fa, chunks := pk.chunks, metadata_store := pk.metadata_store,
          dimension := pk.dimension } := by
    rw [VectorStore.load, hfa, hpk]
  refine ⟨rfl, ?_, ?_, ?_⟩ <;>
    simp [ProjectRAG.index_project, hfa, hload, lookup_setA_self, VectorStore.save,
      add_chunks_chunks, add_chunks_index]

/-- The persisted artifacts of the one-chunk store `storeF`. -/
def pkl1 : PklData :=
  { chunks := [chunkF], metadata_store := [(chunkF.chunk_id, chunkF)], dimension := 1 }

/-- A durable store already holding `storeF`'s artifact pair under `u_p`. -/
def disk2 : Disk := { faissFiles := [("u_p", [[1]])], pklFiles := [("u_p", pkl1)] }

/-- An empty in-memory cache. -/
def ragEmpty : ProjectRAG := { vector_stores := [] }

/-- Witness for C1: re-indexing the already-persisted project `u_p` with one
new one-chunk file grows the persisted chunk list from one entry to two and
returns 1, the chunk count of this call alone. -/
theorem C1_witness :
    ((ProjectRAG.index_project E0 ragEmpty disk2 "u" "p" "t" [("b.txt", "hi")]).1
        = (processFiles [("b.txt", "hi")] "u" "p" "t").length
      ∧ ((ProjectRAG.index_project E0 ragEmpty disk2 "u" "p" "t"
            [("b.txt", "hi")]).2.2.pklFiles.lookup (storeKey "u" "p")).map PklData.chunks
        = some (pkl1.chunks ++ embedWith E0 (processFiles [("b.txt", "hi")] "u" "p" "t"))
      ∧ (ProjectRAG.index_project E0 ragEmpty disk2 "u" "p" "t"
            [("b.txt", "hi")]).2.2.faissFiles.lookup (storeKey "u" "p")
        = some ([[1]] ++ (processFiles [("b.txt", "hi")] "u" "p" "t").map
            (fun c => E0.encode c.content))
      ∧ ((ProjectRAG.index_project E0 ragEmpty disk2 "u" "p" "t"
            [("b.txt", "hi")]).2.1.vector_stores.lookup (storeKey "u" "p")).map
            VectorStore.chunks
        = some (pkl1.chunks ++ embedWith E0 (processFiles [("b.txt", "hi")] "u" "p" "t")))
    ∧ (processFiles [("b.txt", "hi")] "u" "p" "t").length = 1
    ∧ pkl1.chunks.length = 1 :=
  ⟨C1_index_project_cumulative E0 ragEmpty disk2 "u" "p" "t" [("b.txt", "hi")] [[1]] pkl1
      (by decide) (by decide),
    by decide, by decide⟩

/-! Claim C3. -/

/-- C3: evaluation at the failing input.  The store holds one chunk whose
metadata `type` is the string `"function"`.  Without a filter the chunk is
returned; with `file_types = ["function"]` — a list containing the chunk's
type — `search_project` returns nothing, because `_matches_filters` compares
the chunk's `type` (a string) for equality with the whole list instead of
testing membership, so the comparison can never succeed. -/
theorem C3_file_types_filter_excludes_all :
    (ProjectRAG.search_project E0 rag1 disk1 "u" "p" "q" 5 (some ["function"])).1 = []
    ∧ (ProjectRAG.search_project E0 rag1 disk1 "u" "p" "q" 5 none).1.map
        (fun r => r.chunk.content) = ["hello"]
    ∧ chunkF.metadata.lookup "type" = some (Val.str "function")
    ∧ matchesFilters chunkF [("type", Val.listStr ["function"])] = false := by
  exact ⟨by decide, by decide, by decide, by decide⟩

/-! Claim C4. -/

/-- C4 counterexample: chunking the empty file under the generic strategy
yields one chunk, not zero, and that chunk's content is empty — refuting
both "empty chunks are silently dropped" and "empty text yields zero chunks
under every strategy". -/
theorem C4_cex :
    chunkGenericFile "a.txt" "" "u" "p" "t" "text" ≠ []
    ∧ ∃ c ∈ chunkGenericFile "a.txt" "" "u" "p" "t" "text", c.content = "" := by
  exact ⟨by decide, by decide⟩

/-- C4 amended: only the markdown strategy drops whitespace-only chunks and
yields zero chunks on empty input; the structural-code (Python and
JavaScript), JSON and generic strategies each emit exactly one chunk whose
content is the empty string when the file's text is empty. -/
theorem C4_amended (fn u p now ftype : String) :
    (chunkGenericFile fn "" u p now ftype).map DocumentChunk.content = [""]
    ∧ (chunkPythonFile fn "" u p now).map DocumentChunk.content = [""]
    ∧ (chunkJsFile fn "" u p now).map DocumentChunk.content = [""]
    ∧ (chunkJsonFile fn "" u p now).map DocumentChunk.content = [""]
    ∧ chunkMarkdownFile fn "" u p now = [] := by
  exact ⟨rfl, rfl, rfl, rfl, rfl⟩

/-! Claim C5. -/

/-- The `start_line` value of the end-of-input flush for a buffer of `len`
lines out of `total`. -/
def endStart (total len : Nat) : Int := (total : Int) - (len : Int) + 1

/-- Runs of consecutive import lines bypass the size check entirely: with the
buffer already holding `j ≥ 1` import lines in `imports` mode, the remaining
`m` import lines are all absorbed into the same buffer and flushed as one
chunk at end of input. -/
lemma importsRun (fn u p now : String) (total : Nat) :
    ∀ (m j i : Nat), 0 < j →
    chunkCodeLines pythonRules fn u p now total (List.replicate m "import a") i
        (List.replicate j "import a") "imports"
      = [createChunk (pyJoin "\n" (List.replicate (j + m) "import a")) fn u p now
          [("type", Val.str "imports"),
           ("start_line", Val.int (endStart total (j + m)))]] := by
  intro m
  induction m with
  | zero =>
    intro j i hj
    obtain ⟨j2, rfl⟩ : ∃ j2, j = j2 + 1 := ⟨j - 1, by omega⟩
    simp [chunkCodeLines, List.replicate_succ, endStart]
  | succ m ih =>
    intro j i hj
    obtain ⟨j2, rfl⟩ : ∃ j2, j = j2 + 1 := ⟨j - 1, by omega⟩
    rw [List.replicate_succ "import a" m]
    simp only [chunkCodeLines]
    have h1 : pythonRules.isImport (pyStrip "import a") = true := by decide
    have h2 : (!(List.replicate (j2 + 1) "import a").isEmpty
        && (("imports" : String) != "imports")) = false := by
      simp
    rw [h1, if_pos rfl, h2, if_neg (by simp)]
    rw [show List.replicate (j2 + 1) "import a" ++ ["import a"]
        = List.replicate (j2 + 1 + 1) "import a" from (List.replicate_succ' (j2 + 1) _).symm]
    rw [show j2 + 1 + (m + 1) = j2 + 1 + 1 + m by omega]
    exact ih (j2 + 1 + 1) (i + 1) (by omega)

/-- C5 amended: the structural-code strategy's size check fires only when a
non-structural line pushes the buffer past 50 lines — the flushed chunk then
holds 51 lines (second conjunct) — and lines recognized as structural
(imports, class or function headers) are appended with no size check at all,
so a run of import lines of any length becomes a single chunk holding every
one of its lines (first conjunct). -/
theorem C5_amended (fn u p now : String) (total : Nat) (n i : Nat) :
    chunkCodeLines pythonRules fn u p now total (List.replicate (n + 1) "import a") i
        [] "general"
      = [createChunk (pyJoin "\n" (List.replicate (n + 1) "import a")) fn u p now
          [("type", Val.str "imports"),
           ("start_line", Val.int (endStart total (n + 1)))]]
    ∧ (chunkPythonFile "a.py" (pyJoin "\n" (List.replicate 51 "x")) "u" "p" "t").map
        (fun c => (pySplit c.content "\n").length) = [51] := by
  constructor
  · conv_lhs => rw [List.replicate_succ "import a" n]
    simp only [chunkCodeLines]
    have h1 : pythonRules.isImport (pyStrip "import a") = true := by decide
    rw [h1, if_pos rfl]
    rw [if_neg (by simp)]
    rw [show ([] : List String) ++ ["import a"] = List.replicate 1 "import a" from rfl]
    rw [show n + 1 = 1 + n by omega]
    exact importsRun fn u p now total n 1 (i + 1) (by omega)
  · decide

set_option maxRecDepth 8192 in
/-- C5 counterexample: a file of 60 consecutive import lines is chunked into
a single chunk holding all 60 lines — more than the claimed 50-line maximum,
and with no forced flush at the threshold. -/
theorem C5_cex :
    ∃ c ∈ chunkPythonFile "a.py" (pyJoin "\n" (List.replicate 60 "import a")) "u" "p" "t",
      50 < (pySplit c.content "\n").length := by decide

/-! Substring-containment lemmas for the context assembly. -/

lemma listIsPrefixOf_append_self (s t : List Char) : listIsPrefixOf s (s ++ t) = true := by
  induction s with
  | nil => rfl
  | cons c cs ih => simp [listIsPrefixOf, ih]

lemma listContains_of_listIsPrefixOf {s hay : List Char}
    (h : listIsPrefixOf s hay = true) : listContainsChars s hay = true := by
  cases hay with
  | nil =>
    cases s with
    | nil => rfl
    | cons c cs => simp [listIsPrefixOf] at h
  | cons c cs => simp [listContainsChars, h]

lemma listContains_append (pre s suf : List Char) :
    listContainsChars s (pre ++ s ++ suf) = true := by
  induction pre with
  | nil => exact listContains_of_listIsPrefixOf (listIsPrefixOf_append_self s suf)
  | cons c cs ih =>
    show listContainsChars s (c :: (cs ++ s ++ suf)) = true
    simp only [listContainsChars, ih, Bool.or_true]

/-- Containment by explicit decomposition of the haystack's characters. -/
lemma pyIn_of_decomp {sub out : String} (x y : List Char)
    (h : out.data = x ++ sub.data ++ y) : pyIn sub out = true := by
  rw [pyIn, h]
  exact listContains_append x sub.data y

/-- Python `sub in x ++ sub ++ y` always holds. -/
lemma pyIn_append (x sub y : String) : pyIn sub (x ++ sub ++ y) = true := by
  apply pyIn_of_decomp x.data y.data
  simp [String.data_append]

/-- Every member of a joined list appears contiguously in the join. -/
lemma pyJoin_mem_decomp (sep : String) :
    ∀ (l : List String) (s : String), s ∈ l →
    ∃ x y, (pyJoin sep l).data = x ++ s.data ++ y := by
  intro l
  induction l with
  | nil => intro s hs; cases hs
  | cons a t ih =>
    intro s hs
    cases t with
    | nil =>
      rw [List.mem_singleton.mp hs]
      exact ⟨[], [], by simp [pyJoin]⟩
    | cons b t2 =>
      rcases List.mem_cons.mp hs with rfl | hs
      · refine ⟨[], (sep ++ pyJoin sep (b :: t2)).data, ?_⟩
        simp [pyJoin, String.data_append]
      · rcases ih s hs with ⟨x, y, hxy⟩
        refine ⟨(a ++ sep).data ++ x, y, ?_⟩
        simp [pyJoin, String.data_append, hxy]

/-- A string that appears contiguously in a member of a list appears
contiguously in the list's join. -/
lemma pyIn_join {sep sub : String} {l : List String} (block : String) (hmem : block ∈ l)
    (X Y : String) (hb : block = X ++ sub ++ Y) :
    pyIn sub (pyJoin sep l) = true := by
  obtain ⟨x, y, hxy⟩ := pyJoin_mem_decomp sep l block hmem
  apply pyIn_of_decomp (x ++ X.data) (Y.data ++ y)
  rw [hxy, hb]
  simp [String.data_append]

/-! Claim C6. -/

/-- The results of a search are in descending score order (shared helper for
the context-assembly claim). -/
lemma search_scores_desc (E : Embedder) (vs : VectorStore) (query : String) (k : Nat)
    (filters : List (String × Val)) :
    ((vs.search E query k filters).map SearchResult.similarity_score).Pairwise
      (fun a b => b ≤ a) := by
  by_cases h : vs.index.length = 0
  · simp [VectorStore.search, h]
  · rw [VectorStore.search, if_neg h]
    refine List.Pairwise.sublist (searchLoop_scores_sublist vs.chunks filters k _ 0) ?_
    exact (List.pairwise_map).mpr (pairwise_faissSearch vs.index (E.encode query) _)

/-- The results of search_project are in descending score order, through
every branch (cache hit, disk load, never indexed). -/
lemma search_project_scores_desc (E : Embedder) (st : ProjectRAG) (disk : Disk)
    (u p query : String) (k : Nat) (ft : Option (List String)) :
    (((ProjectRAG.search_project E st disk u p query k ft).1).map
        SearchResult.similarity_score).Pairwise (fun a b => b ≤ a) := by
  cases hc : st.vector_stores.lookup (storeKey u p) with
  | some vs =>
    simp only [ProjectRAG.search_project, hc]
    exact search_scores_desc E vs query k (mkFilters ft)
  | none =>
    cases hd : disk.faissFiles.lookup (storeKey u p) with
    | some fa =>
      simp only [ProjectRAG.search_project, hc, hd]
      exact search_scores_desc E _ query k (mkFilters ft)
    | none =>
      simp [ProjectRAG.search_project, hc, hd]

/-- C6 amended: the context string is empty exactly when the search finds
nothing; otherwise it is exactly the newline-join of one block per hit, in
the order the search returns them — which is descending-similarity order
(second conjunct) — each block carrying the hit's filename, its chunk type,
its similarity score rendered with three decimals, the first 1000 characters
of its content followed by the truncation marker `"..."` — appended
unconditionally, whether or not the content exceeds 1000 characters — and
the visible `---` rule closing the block.  The final conjuncts record the
containment consequences per hit. -/
theorem C6_amended (E : Embedder) (st : ProjectRAG) (disk : Disk) (u p query : String)
    (m : Nat) :
    ((ProjectRAG.search_project E st disk u p query m none).1 = [] →
      (ProjectRAG.get_relevant_context E st disk u p query m).1 = "")
    ∧ (((ProjectRAG.search_project E st disk u p query m none).1.map
          SearchResult.similarity_score).Pairwise (fun a b => b ≤ a))
    ∧ ((ProjectRAG.search_project E st disk u p query m none).1 ≠ [] →
        (ProjectRAG.get_relevant_context E st disk u p query m).1
          = pyJoin "\n"
              ((ProjectRAG.search_project E st disk u p query m none).1.map (fun r =>
                "\nFile: "
                  ++ ((r.chunk.metadata.lookup "filename").getD (Val.str "")).render
                  ++ "\nType: "
                  ++ ((r.chunk.metadata.lookup "type").getD (Val.str "unknown")).render
                  ++ "\nRelevance Score: " ++ fmt3 r.similarity_score
                  ++ "\n\nContent:\n" ++ pyTake r.chunk.content 1000 ++ "..."
                  ++ "\n---\n")))
    ∧ ∀ r ∈ (ProjectRAG.search_project E st disk u p query m none).1,
        pyIn (pyTake r.chunk.content 1000 ++ "...")
            (ProjectRAG.get_relevant_context E st disk u p query m).1 = true
        ∧ pyIn (fmt3 r.similarity_score)
            (ProjectRAG.get_relevant_context E st disk u p query m).1 = true
        ∧ pyIn ((r.chunk.metadata.lookup "filename").getD (Val.str "")).render
            (ProjectRAG.get_relevant_context E st disk u p query m).1 = true := by
  refine ⟨?_, ?_, ?_, ?_⟩
  · intro h
    simp [ProjectRAG.get_relevant_context, h]
  · exact search_project_scores_desc E st disk u p query m none
  · intro hne
    have hout : (ProjectRAG.get_relevant_context E st disk u p query m).1
        = pyJoin "\n" ((ProjectRAG.search_project E st disk u p query m none).1.map
            contextBlock) := by
      simp [ProjectRAG.get_relevant_context, List.isEmpty_eq_false.mpr hne]
    have hblk : contextBlock = (fun r : SearchResult =>
        "\nFile: " ++ ((r.chunk.metadata.lookup "filename").getD (Val.str "")).render
          ++ "\nType: "
          ++ ((r.chunk.metadata.lookup "type").getD (Val.str "unknown")).render
          ++ "\nRelevance Score: " ++ fmt3 r.similarity_score
          ++ "\n\nContent:\n" ++ pyTake r.chunk.content 1000 ++ "..."
          ++ "\n---\n") := by
      funext r
      rw [contextBlock, show ("...\n---\n" : String) = "..." ++ "\n---\n" from rfl]
      simp [String.append_assoc]
    rw [hout, hblk]
  · intro r hr
    have hne : (ProjectRAG.search_project E st disk u p query m none).1 ≠ [] :=
      List.ne_nil_of_mem hr
    have hout : (ProjectRAG.get_relevant_context E st disk u p query m).1
        = pyJoin "\n" ((ProjectRAG.search_project E st disk u p query m none).1.map
            contextBlock) := by
      simp [ProjectRAG.get_relevant_context, List.isEmpty_eq_false.mpr hne]
    have hbmem : contextBlock r
        ∈ (ProjectRAG.search_project E st disk u p query m none).1.map contextBlock :=
      List.mem_map_of_mem contextBlock hr
    have hsplit : ("...\n---\n" : String) = "..." ++ "\n---\n" := rfl
    rw [hout]
    refine ⟨?_, ?_, ?_⟩
    · refine pyIn_join (contextBlock r) hbmem
        ("\nFile: " ++ ((r.chunk.metadata.lookup "filename").getD (Val.str "")).render
          ++ "\nType: " ++ ((r.chunk.metadata.lookup "type").getD (Val.str "unknown")).render
          ++ "\nRelevance Score: " ++ fmt3 r.similarity_score ++ "\n\nContent:\n")
        "\n---\n" ?_
      rw [contextBlock, hsplit]
      simp [String.append_assoc]
    · refine pyIn_join (contextBlock r) hbmem
        ("\nFile: " ++ ((r.chunk.metadata.lookup "filename").getD (Val.str "")).render
          ++ "\nType: " ++ ((r.chunk.metadata.lookup "type").getD (Val.str "unknown")).render
          ++ "\nRelevance Score: ")
        ("\n\nContent:\n" ++ pyTake r.chunk.content 1000 ++ "...\n---\n") ?_
      rw [contextBlock]
      simp [String.append_assoc]
    · refine pyIn_join (contextBlock r) hbmem
        "\nFile: "
        ("\nType: " ++ ((r.chunk.metadata.lookup "type").getD (Val.str "unknown")).render
          ++ "\nRelevance Score: " ++ fmt3 r.similarity_score
          ++ "\n\nContent:\n" ++ pyTake r.chunk.content 1000 ++ "...\n---\n") ?_
      rw [contextBlock]
      simp [String.append_assoc]

/-- Witness for C6's amended claim, at a state whose single indexed chunk has
the 5-character content `"hello"`: the nonempty-result hypothesis is
discharged concretely, giving the exact one-block-per-hit output shape, and
the containment conjunct shows the content followed immediately by the
truncation marker. -/
theorem C6_witness :
    (ProjectRAG.get_relevant_context E0 rag1 disk1 "u" "p" "q" 3).1
      = pyJoin "\n"
          ((ProjectRAG.search_project E0 rag1 disk1 "u" "p" "q" 3 none).1.map (fun r =>
            "\nFile: "
              ++ ((r.chunk.metadata.lookup "filename").getD (Val.str "")).render
              ++ "\nType: "
              ++ ((r.chunk.metadata.lookup "type").getD (Val.str "unknown")).render
              ++ "\nRelevance Score: " ++ fmt3 r.similarity_score
              ++ "\n\nContent:\n" ++ pyTake r.chunk.content 1000 ++ "..."
              ++ "\n---\n"))
    ∧ pyIn (pyTake ((r1 : SearchResult).chunk.content) 1000 ++ "...")
        (ProjectRAG.get_relevant_context E0 rag1 disk1 "u" "p" "q" 3).1 = true :=
  ⟨(C6_amended E0 rag1 disk1 "u" "p" "q" 3).2.2.1 (by decide),
    (((C6_amended E0 rag1 disk1 "u" "p" "q" 3).2.2.2 r1 (by decide)).1)⟩

/-- C6 counterexample: the hit's content is 5 characters long — not longer
than 1000 — yet the emitted block still carries the truncation marker right
after it, refuting "a truncation marker appended exactly when the content is
longer than 1000 characters". -/
theorem C6_cex :
    ("hello" : String).length ≤ 1000
    ∧ (ProjectRAG.search_project E0 rag1 disk1 "u" "p" "q" 3 none).1.map
        (fun r => r.chunk.content) = ["hello"]
    ∧ pyIn ("hello" ++ "...")
        (ProjectRAG.get_relevant_context E0 rag1 disk1 "u" "p" "q" 3).1 = true := by
  exact ⟨by decide, by decide, by decide⟩

/-! Claim C7. -/

/-- C7 amended: when the key has never been indexed — no in-memory cache
entry and no persisted `.faiss` artifact — search_similar_code (and the
underlying search_project) returns the empty list and raises no error.  An
empty query is not special-cased: on an indexed project it is embedded and
searched like any other string (see the counterexample). -/
theorem C7_amended (E : Embedder) (st : ProjectRAG) (disk : Disk) (query : String)
    (k : Nat) (u p : String)
    (hc : st.vector_stores.lookup (storeKey u p) = none)
    (hd : disk.faissFiles.lookup (storeKey u p) = none) :
    (ProjectRAG.search_similar_code E st disk query k u p).1 = []
    ∧ (ProjectRAG.search_project E st disk u p query k none).1 = [] := by
  have h2 : ProjectRAG.search_project E st disk u p query k none = ([], st) := by
    rw [ProjectRAG.search_project, hc, hd]
  constructor
  · simp [ProjectRAG.search_similar_code, h2]
  · rw [h2]

/-- Witness for C7's amended claim: a never-indexed key yields the empty
result list through both entry points. -/
theorem C7_witness :
    (ProjectRAG.search_similar_code E0 ragEmpty disk1 "q" 5 "u" "p").1 = []
    ∧ (ProjectRAG.search_project E0 ragEmpty disk1 "u" "p" "q" 5 none).1 = [] :=
  C7_amended E0 ragEmpty disk1 "q" 5 "u" "p" (by decide) (by decide)

/-- C7 counterexample: on an indexed project the empty query is searched
like any other string and returns a hit, refuting "returns the empty list
whenever the query string is empty". -/
theorem C7_cex :
    (ProjectRAG.search_similar_code E0 rag1 disk1 "" 5 "u" "p").1
      = [{ file := Val.str "a.py", content := "hello", score := 1,
           type := Val.str "function" }] := by
  decide

/-! Claim C8. -/

/-- C8 amended: load never signals an error.  If either companion artifact
is missing it returns normally, leaving the store exactly as it was (a
silent no-op); when both are present it adopts the persisted index, chunk
list, dictionary and dimension verbatim, with no corruption or dimension
validation of any kind — the source defines no CorruptIndexError. -/
theorem C8_amended (disk : Disk) (path : String) (vs : VectorStore) :
    (disk.faissFiles.lookup path = none → VectorStore.load disk path vs = vs)
    ∧ (disk.pklFiles.lookup path = none → VectorStore.load disk path vs = vs)
    ∧ (∀ fa pk, disk.faissFiles.lookup path = some fa →
        disk.pklFiles.lookup path = some pk →
        VectorStore.load disk path vs
          = { index := fa, chunks := pk.chunks, metadata_store := pk.metadata_store,
              dimension := pk.dimension }) := by
  refine ⟨?_, ?_, ?_⟩
  · intro h
    rw [VectorStore.load, h]
  · intro h
    cases hl : disk.faissFiles.lookup path with
    | none => rw [VectorStore.load, hl]
    | some fa => rw [VectorStore.load, hl, h]
  · intro fa pk hfa hpk
    rw [VectorStore.load, hfa, hpk]

/-- Witness for C8's amended claim: a disk holding only the `.faiss` half of
the pair leaves a fresh store untouched on load. -/
theorem C8_witness :
    VectorStore.load { faissFiles := [("k", [[1]])], pklFiles := [] } "k"
        (VectorStore.init E0)
      = VectorStore.init E0 :=
  (C8_amended { faissFiles := [("k", [[1]])], pklFiles := [] } "k"
    (VectorStore.init E0)).2.1 (by decide)

/-- C8 counterexample: with the `.pkl` companion missing, load returns
normally and leaves the store empty (no CorruptIndexError, no failure); and
with both artifacts present but a persisted dimension of 384 against a
store dimension of 1, the mismatched dimension is silently adopted — load
never fails loudly. -/
theorem C8_cex :
    VectorStore.load { faissFiles := [("k2", [[1]])], pklFiles := [] } "k2"
        (VectorStore.init E0)
      = VectorStore.init E0
    ∧ (VectorStore.load
        { faissFiles := [("k2", [[1]])],
          pklFiles := [("k2", { chunks := [], metadata_store := [], dimension := 384 })] }
        "k2" (VectorStore.init E0)).dimension = 384
    ∧ (VectorStore.init E0).dimension = 1 := by
  exact ⟨by decide, by decide, by decide⟩

/-! Claim C9. -/

/-- C9: JSON chunking is total (the Lean model is a function, mirroring that
the source catches the only exception `json.loads` raises).  When the
content parses as a key-value mapping, exactly one chunk is emitted per
top-level key, whose content `"Key: <k>\nValue: <dumped v>"` contains the
key's name; when parsing fails, a single whole-document fallback chunk
tagged `invalid_json` is emitted; when the parsed root is not a mapping, a
single whole-document fallback chunk tagged `json_content` is emitted. -/
theorem C9_json_chunking (fn u p now content : String) :
    (jsonParse content = none →
        (chunkJsonFile fn content u p now).map DocumentChunk.content = [content]
        ∧ (chunkJsonFile fn content u p now).map (fun c => c.metadata.lookup "type")
            = [some (Val.str "invalid_json")])
    ∧ (∀ members, jsonParse content = some (Json.obj members) →
        (chunkJsonFile fn content u p now).map DocumentChunk.content
            = members.map (fun kv => "Key: " ++ kv.1 ++ "\nValue: " ++ dumps kv.2)
        ∧ ∀ kv ∈ members,
            pyIn kv.1 ("Key: " ++ kv.1 ++ "\nValue: " ++ dumps kv.2) = true)
    ∧ (∀ j, jsonParse content = some j → (∀ members, j ≠ Json.obj members) →
        (chunkJsonFile fn content u p now).map DocumentChunk.content = [content]
        ∧ (chunkJsonFile fn content u p now).map (fun c => c.metadata.lookup "type")
            = [some (Val.str "json_content")]) := by
  refine ⟨?_, ?_, ?_⟩
  · intro h
    rw [chunkJsonFile, h]
    constructor
    · simp [createChunk]
    · simp [createChunk, List.lookup]
  · intro members h
    rw [chunkJsonFile, h]
    constructor
    · simp [createChunk, List.map_map, Function.comp]
    · intro kv _
      have hin := pyIn_append "Key: " kv.1 ("\nValue: " ++ dumps kv.2)
      simpa [String.append_assoc] using hin
  · intro j h hno
    rw [chunkJsonFile, h]
    cases j with
    | obj members => exact absurd rfl (hno members)
    | null => exact ⟨by simp [createChunk], by simp [createChunk, List.lookup]⟩
    | bool b => exact ⟨by simp [createChunk], by simp [createChunk, List.lookup]⟩
    | num n => exact ⟨by simp [createChunk], by simp [createChunk, List.lookup]⟩
    | str s => exact ⟨by simp [createChunk], by simp [createChunk, List.lookup]⟩
    | arr l => exact ⟨by simp [createChunk], by simp [createChunk, List.lookup]⟩

/-- The spec's two-key example document
`'{"db": {"host":"x"}, "api": {"port":8}}'`. -/
def jdoc : String := "\x7b\"db\": \x7b\"host\":\"x\"\x7d, \"api\": \x7b\"port\":8\x7d\x7d"

/-- The two top-level members `json.loads` yields for `jdoc`. -/
def jmembers : List (String × Json) :=
  [("db", Json.obj [("host", Json.str "x")]), ("api", Json.obj [("port", Json.num 8)])]

/-- Witness for C9 on the spec's two-key example: exactly 2 chunks, one per
top-level key, and each chunk's content contains its own key name. -/
theorem C9_witness :
    (chunkJsonFile "config.json" jdoc "u" "p" "t").map DocumentChunk.content
      = jmembers.map (fun kv => "Key: " ++ kv.1 ++ "\nValue: " ++ dumps kv.2)
    ∧ (chunkJsonFile "config.json" jdoc "u" "p" "t").length = 2
    ∧ (chunkJsonFile "config.json" jdoc "u" "p" "t").map
        (fun c => pyIn (((c.metadata.lookup "key").getD (Val.str "")).render) c.content)
      = [true, true] :=
  ⟨((C9_json_chunking "config.json" "u" "p" "t" jdoc).2.1 jmembers (by rfl)).1,
    by decide, by decide⟩

/-- Witness instantiating C2 at a concrete one-chunk store and query. -/
theorem C2_witness :
    (VectorStore.search E0 storeF "q" 5 []).length ≤ 5
    ∧ (VectorStore.search E0 storeF "q" 5 []).map SearchResult.rank
        = List.range' 1 (VectorStore.search E0 storeF "q" 5 []).length
    ∧ ((VectorStore.search E0 storeF "q" 5 []).map SearchResult.similarity_score).Pairwise
        (fun a b => b ≤ a)
    ∧ (faissSearch storeF.index (E0.encode "q") (min 5 storeF.index.length)).length
        = min 5 storeF.index.length
    ∧ (∀ chunks ms d, VectorStore.search E0 ⟨[], chunks, ms, d⟩ "q" 5 [] = []) :=
  C2_search_shape E0 storeF "q" 5 []
